import Mathlib

/-!
Shallow embedding of the kube-fledged reconciliation controller
(cmd/controller/app/controller.go) and proofs about its behaviour.

The controller watches ImageCache resources, enqueues WorkQueueKey items,
fans out per-(image, node) ImageWorkRequest items, aggregates
ImageWorkResult batches and writes the aggregate back onto the
ImageCache status.

Go maps are embedded as association lists, pointers as Option, the
metav1.Time clock as a Nat parameter, and a runtime panic (nil
dereference or index out of range) as a none result.
-/

/-- Modelled from the spec (pkg/apis types are not among the sources):
an Image is a pair of an image reference and the forceFullCache flag. -/
structure Image where
  name : String
  forceFullCache : Bool
deriving DecidableEq

/-- Modelled from the spec: one entry of spec.cacheSpec, an ordered list of
images together with a node label selector (empty selector means all nodes). -/
structure CacheSpecImages where
  images : List Image
  nodeSelector : List (String × String)
deriving DecidableEq

/-- Modelled from the spec: the ImageCache spec, an ordered sequence of
CacheSpecImages plus the opaque imagePullSecrets list. -/
structure ImageCacheSpec where
  cacheSpec : List CacheSpecImages
  imagePullSecrets : List String
deriving DecidableEq

/-- Modelled from the spec: the closed enumeration of status.status values;
empty stands for the Go zero string. -/
inductive ImageCacheActionStatus where
  | empty
  | processing
  | succeeded
  | failed
  | aborted
  | noImagesPulledOrDeleted
deriving DecidableEq

/-- Modelled from the spec: the status.reason enumeration; empty stands for
the Go zero string. -/
inductive ImageCacheReason where
  | empty
  | imageCacheCreate
  | imageCacheUpdate
  | imageCacheRefresh
  | imageCachePurge
  | cacheSpecValidationFailed
  | imagePullAborted
  | oldImageCacheNotFound
deriving DecidableEq

/-- Modelled from the spec: the human readable status.message constants used
by the controller; empty stands for the Go zero string. Distinct
constructors model distinct Go string constants. -/
inductive ImageCacheMessage where
  | empty
  | pullingImages
  | updatingCache
  | refreshingCache
  | purgeCache
  | imagesPulledSuccessfully
  | imagesDeletedSuccessfully
  | imagePullFailedForSomeImages
  | imageDeleteFailedForSomeImages
  | noImagesPulledOrDeleted
  | imagePullAborted
  | oldImageCacheNotFound
deriving DecidableEq

/-- Modelled from the spec: one failure record {node, reason, message}. -/
structure NodeReasonMessage where
  node : String
  reason : String
  message : String
deriving DecidableEq

/-- Modelled from the spec: the ImageCache status block. Failures is the Go
map from image reference to a list of NodeReasonMessage, embedded as an
association list; timestamps are Option Nat. -/
structure ImageCacheStatus where
  status : ImageCacheActionStatus
  reason : ImageCacheReason
  message : ImageCacheMessage
  failures : List (String × List NodeReasonMessage)
  startTime : Option Nat
  completionTime : Option Nat
deriving DecidableEq

/-- Modelled from the spec: the ImageCache resource. The annots field is the
Go metadata annotation map as an association list. -/
structure ImageCache where
  name : String
  ns : String
  annots : List (String × String)
  spec : ImageCacheSpec
  status : ImageCacheStatus
deriving DecidableEq

/-- Modelled from the spec: the part of a cluster Node that the controller
reads - name, label map and container runtime version. -/
structure Node where
  name : String
  labels : List (String × String)
  containerRuntimeVersion : String
deriving DecidableEq

/-- Modelled from the spec (pkg/images is not among the sources): the six
work types of section 3.2. -/
inductive WorkType where
  | create
  | update
  | refresh
  | purge
  | delete
  | statusUpdate
deriving DecidableEq

/-- Modelled from the spec: an ImageWorkRequest (section 3.3). The sentinel
request has an empty image and node = none. -/
structure ImageWorkRequest where
  image : String
  forceFullCache : Bool
  node : Option Node
  containerRuntimeVersion : String
  workType : WorkType
  imagecache : ImageCache
deriving DecidableEq

/-- Modelled from the spec: the result classification of section 3.4. -/
inductive ImageWorkResultStatus where
  | succeeded
  | alreadyPulled
  | failed
  | unknown
deriving DecidableEq

/-- Modelled from the spec: an ImageWorkResult (section 3.4). -/
structure ImageWorkResult where
  status : ImageWorkResultStatus
  reason : String
  message : String
  imageWorkRequest : ImageWorkRequest
deriving DecidableEq

/-- Modelled from the spec: a WorkQueueKey (section 3.2). The status field
carries the jobId-to-result map of a StatusUpdate key as an association
list. -/
structure WorkQueueKey where
  objKey : String
  workType : WorkType
  oldImageCache : Option ImageCache
  status : Option (List (String × ImageWorkResult))
deriving DecidableEq

/-- Annotation key requesting a purge (constant in controller.go). -/
def imageCachePurgeAnnotationKey : String := "kubefledged.io/purge-imagecache"

/-- Annotation key requesting a refresh (constant in controller.go). -/
def imageCacheRefreshAnnotationKey : String := "kubefledged.io/refresh-imagecache"

/-- The Go zero value of ImageCacheStatus, used by the DeepEqual emptiness
checks in enqueueImageCache and runRefreshWorker. -/
def zeroStatus : ImageCacheStatus :=
  { status := .empty, reason := .empty, message := .empty,
    failures := [], startTime := none, completionTime := none }

/-- cache.MetaNamespaceKeyFunc: the namespace/name key of an object. -/
def objKeyOf (ic : ImageCache) : String :=
  if ic.ns = "" then ic.name else ic.ns ++ "/" ++ ic.name

/-- Membership test on the annotation map. -/
def hasAnnot (ic : ImageCache) (key : String) : Bool :=
  (ic.annots.lookup key).isSome

/-- Embedding of Controller.enqueueImageCache (controller.go lines 368-430).
The returned Option is some enqueued key when the Go function returns true,
none when it returns false or when a nil interface value makes the Go code
drop the item. -/
def enqueueImageCache (workType : WorkType) (old new : Option ImageCache) :
    Option WorkQueueKey :=
  match workType with
  | .create => do
    let n ← new
    if n.status = zeroStatus then
      some { objKey := objKeyOf n, workType := .create,
             oldImageCache := none, status := none }
    else
      none
  | .update => do
    let o ← old
    let n ← new
    if o.status.status = .processing ∧ ¬ n.spec = o.spec then
      none
    else if hasAnnot n imageCachePurgeAnnotationKey ∧
        ¬ hasAnnot o imageCachePurgeAnnotationKey then
      some { objKey := objKeyOf n, workType := .purge,
             oldImageCache := none, status := none }
    else if hasAnnot n imageCacheRefreshAnnotationKey ∧
        ¬ hasAnnot o imageCacheRefreshAnnotationKey then
      some { objKey := objKeyOf n, workType := .refresh,
             oldImageCache := none, status := none }
    else if n.spec = o.spec then
      none
    else
      some { objKey := objKeyOf n, workType := .update,
             oldImageCache := some o, status := none }
  | .delete => none
  | .refresh => do
    let o ← old
    some { objKey := objKeyOf o, workType := .refresh,
           oldImageCache := none, status := none }
  | _ => none

/-- Embedding of Controller.runRefreshWorker (controller.go lines 496-523):
scan the lister and enqueue a Refresh key for each eligible ImageCache. -/
def runRefreshWorker (imageCaches : List ImageCache) : List WorkQueueKey :=
  imageCaches.filterMap fun ic =>
    if ic.status = zeroStatus then none
    else if ic.status.status = .processing then none
    else if ic.status.status = .failed ∧
        ic.status.reason = .cacheSpecValidationFailed then none
    else if ic.status.reason = .imageCachePurge then none
    else enqueueImageCache .refresh (some ic) none

/-- Embedding of Controller.updateImageCacheStatus (controller.go lines
750-769): refetch the object, overwrite its status block with the given
status, and stamp completionTime with the current time whenever the written
status.status is not Processing. -/
def updateImageCacheStatus (ic : ImageCache) (status : ImageCacheStatus)
    (now : Nat) : ImageCache :=
  let copy := { ic with status := status }
  if ¬ copy.status.status = .processing then
    { copy with status := { copy.status with completionTime := some now } }
  else
    copy

/-- Status block written by danglingImageCaches before the per-cache
startTime is filled in (controller.go lines 299-304). -/
def abortedStatusWith (startTime : Option Nat) : ImageCacheStatus :=
  { status := .aborted, reason := .imagePullAborted,
    message := .imagePullAborted, failures := [],
    startTime := startTime, completionTime := none }

/-- Embedding of Controller.danglingImageCaches (controller.go lines
287-322): every ImageCache whose status.status is Processing is rewritten
to Aborted / ImagePullAborted keeping its startTime; the rest are left
untouched. -/
def danglingImageCaches (imageCaches : List ImageCache) (now : Nat) :
    List ImageCache :=
  imageCaches.map fun ic =>
    if ic.status.status = .processing then
      updateImageCacheStatus ic (abortedStatusWith ic.status.startTime) now
    else
      ic

/-- A node matches a label selector when its label map contains every
selector pair (labels.Set(sel).AsSelector() semantics). -/
def nodeMatches (sel : List (String × String)) (n : Node) : Bool :=
  sel.all fun kv => decide (n.labels.lookup kv.1 = some kv.2)

/-- nodesLister.List as called by syncHandler (controller.go lines
606-617): a non-empty selector filters the nodes, an empty one returns
them all. -/
def listNodes (nodes : List Node) (sel : List (String × String)) :
    List Node :=
  if sel.isEmpty then nodes else nodes.filter (nodeMatches sel)

/-- The label whose value names the node in failure records. -/
def hostnameLabel : String := "kubernetes.io/hostname"

/-- Node.Labels["kubernetes.io/hostname"] of a request's node, with the Go
missing-key default "". A nil node would panic in Go; no result produced
by the image manager carries one, and the embedding returns "" there. -/
def reqNodeName (r : ImageWorkRequest) : String :=
  match r.node with
  | none => ""
  | some n => (n.labels.lookup hostnameLabel).getD ""

/-- Pull request built for one image of a cacheSpec entry on one node
(controller.go lines 622-630). -/
def pullRequest (wqKey : WorkQueueKey) (imageCache : ImageCache)
    (img : Image) (n : Node) : ImageWorkRequest :=
  { image := img.name, forceFullCache := img.forceFullCache,
    node := some n, containerRuntimeVersion := n.containerRuntimeVersion,
    workType := wqKey.workType, imagecache := imageCache }

/-- Purge request built in the Update diff for an old image entry absent
from the new entry (controller.go lines 642-650). -/
def purgeRequest (imageCache : ImageCache) (img : Image) (n : Node) :
    ImageWorkRequest :=
  { image := img.name, forceFullCache := img.forceFullCache,
    node := some n, containerRuntimeVersion := n.containerRuntimeVersion,
    workType := .purge, imagecache := imageCache }

/-- Requests enqueued for one node while processing cacheSpec entry k
(controller.go lines 620-654): the pulls for every image of the entry,
then - on an Update key - a purge for every old image at index k that does
not occur among the new entry's images. A nil oldImageCache dereference or
an out-of-range index k yields none (a Go panic). -/
def requestsForNode (wqKey : WorkQueueKey) (imageCache : ImageCache)
    (k : Nat) (entry : CacheSpecImages) (n : Node) :
    Option (List ImageWorkRequest) :=
  let pulls := entry.images.map fun img => pullRequest wqKey imageCache img n
  if wqKey.workType = .update then
    match wqKey.oldImageCache with
    | none => none
    | some old =>
      match old.spec.cacheSpec[k]? with
      | none => none
      | some oldEntry =>
        some (pulls ++
          ((oldEntry.images.filter fun oi => decide (¬ oi ∈ entry.images)).map
            fun oi => purgeRequest imageCache oi n))
  else
    some pulls

/-- Concatenate the lists produced by f over l, propagating a none (panic)
from any element. -/
def collectSome {α β : Type} (f : α → Option (List β)) :
    List α → Option (List β)
  | [] => some []
  | a :: as =>
    match f a, collectSome f as with
    | some bs, some rest => some (bs ++ rest)
    | _, _ => none

/-- All ImageWorkRequests generated by the cacheSpec loop of syncHandler
(controller.go lines 606-655), in enqueue order. -/
def genRequests (nodes : List Node) (wqKey : WorkQueueKey)
    (imageCache : ImageCache) : Option (List ImageWorkRequest) :=
  collectSome
    (fun ke =>
      collectSome (requestsForNode wqKey imageCache ke.1 ke.2)
        (listNodes nodes ke.2.nodeSelector))
    imageCache.spec.cacheSpec.enum

/-- The empty batch-boundary request enqueued at the end of a pass
(controller.go line 659). -/
def sentinelRequest (workType : WorkType) (imageCache : ImageCache) :
    ImageWorkRequest :=
  { image := "", forceFullCache := false, node := none,
    containerRuntimeVersion := "", workType := workType,
    imagecache := imageCache }

/-- Processing reason written at the start of a sync pass (controller.go
lines 575-593). -/
def processingReason : WorkType → ImageCacheReason
  | .create => .imageCacheCreate
  | .update => .imageCacheUpdate
  | .refresh => .imageCacheRefresh
  | .purge => .imageCachePurge
  | _ => .empty

/-- Processing message written at the start of a sync pass (controller.go
lines 575-593). -/
def processingMessage : WorkType → ImageCacheMessage
  | .create => .pullingImages
  | .update => .updatingCache
  | .refresh => .refreshingCache
  | .purge => .purgeCache
  | _ => .empty

/-- Go append on a map-of-lists entry: status.Failures[image] =
append(status.Failures[image], e). In the association list embedding the
record is appended at the end of the image's list, or a fresh binding is
added when the image key is absent. -/
def addFailureEntry (fs : List (String × List NodeReasonMessage))
    (img : String) (e : NodeReasonMessage) :
    List (String × List NodeReasonMessage) :=
  match fs with
  | [] => [(img, [e])]
  | (k, v) :: rest =>
    if k = img then (k, v ++ [e]) :: rest
    else (k, v) :: addFailureEntry rest img e

/-- One step of the StatusUpdate aggregation loop over the results map
(controller.go lines 681-707). The accumulator carries the status block
under construction and the failures flag. -/
def aggStep (acc : ImageCacheStatus × Bool) (v : ImageWorkResult) :
    ImageCacheStatus × Bool :=
  let status := acc.1
  let failures := acc.2
  let status :=
    if (v.status = .succeeded ∨ v.status = .alreadyPulled) ∧
        failures = false then
      { status with
        status := .succeeded
        message :=
          if v.imageWorkRequest.workType = .purge then
            .imagesDeletedSuccessfully
          else
            .imagesPulledSuccessfully }
    else status
  let status :=
    if (v.status = .failed ∨ v.status = .unknown) ∧ failures = false then
      { status with
        status := .failed
        message :=
          if v.imageWorkRequest.workType = .purge then
            .imageDeleteFailedForSomeImages
          else
            .imagePullFailedForSomeImages }
    else status
  let status :=
    if v.status = .failed ∨ v.status = .unknown then
      { status with
        failures := addFailureEntry status.failures v.imageWorkRequest.image
          { node := reqNodeName v.imageWorkRequest,
            reason := v.reason, message := v.message } }
    else status
  (status, if v.status = .failed ∨ v.status = .unknown then true else failures)

/-- The cluster state visible to one syncHandler call: the ImageCache
lister/API content and the node lister content. The lister and the API
server are modelled as the same snapshot. -/
structure ClusterState where
  imageCaches : List ImageCache
  nodes : List Node
deriving DecidableEq

/-- SplitMetaNamespaceKey followed by the lister (or API server) Get,
composed: the cache whose namespace/name key equals the work item key. -/
def getImageCache (st : ClusterState) (key : String) : Option ImageCache :=
  st.imageCaches.find? fun ic => objKeyOf ic = key

/-- Observable outcome of one syncHandler call: the ImageCache as written
by updateImageCacheStatus (if any write happened), the ImageWorkRequests
appended to the image work queue in order, the annotation keys removed
from the object, and whether an error was returned. -/
structure SyncResult where
  updatedCache : Option ImageCache
  imageRequests : List ImageWorkRequest
  removedAnnots : List String
  error : Bool
deriving DecidableEq

/-- Embedding of Controller.syncHandler (controller.go lines 528-748).
Returns none when the Go code would panic (nil OldImageCache dereference
inside the Update diff, out-of-range index into the old cacheSpec, or a
nil status map on a StatusUpdate key); otherwise some SyncResult. -/
def syncHandler (st : ClusterState) (wqKey : WorkQueueKey) (now : Nat) :
    Option SyncResult :=
  match wqKey.workType with
  | .create | .update | .refresh | .purge =>
    match getImageCache st wqKey.objKey with
    | none =>
      some { updatedCache := none, imageRequests := [],
             removedAnnots := [], error := true }
    | some imageCache =>
      if wqKey.workType = .update ∧ wqKey.oldImageCache = none then
        let status : ImageCacheStatus :=
          { status := .failed, reason := .oldImageCacheNotFound,
            message := .oldImageCacheNotFound, failures := [],
            startTime := some now, completionTime := none }
        some { updatedCache := some (updateImageCacheStatus imageCache status now),
               imageRequests := [], removedAnnots := [], error := true }
      else
        let status : ImageCacheStatus :=
          { status := .processing,
            reason := processingReason wqKey.workType,
            message := processingMessage wqKey.workType,
            failures := [], startTime := some now, completionTime := none }
        match genRequests st.nodes wqKey imageCache with
        | none => none
        | some reqs =>
          some { updatedCache := some (updateImageCacheStatus imageCache status now),
                 imageRequests := reqs ++ [sentinelRequest wqKey.workType imageCache],
                 removedAnnots := [], error := false }
  | .statusUpdate =>
    match getImageCache st wqKey.objKey with
    | none =>
      some { updatedCache := none, imageRequests := [],
             removedAnnots := [], error := true }
    | some imageCache =>
      match wqKey.status with
      | none => none
      | some results =>
        let base : ImageCacheStatus :=
          { status := .noImagesPulledOrDeleted,
            reason := imageCache.status.reason,
            message := .noImagesPulledOrDeleted,
            failures := [], startTime := imageCache.status.startTime,
            completionTime := none }
        let agg := (results.map Prod.snd).foldl aggStep (base, false)
        let removed :=
          if imageCache.status.reason = .imageCachePurge then
            [imageCachePurgeAnnotationKey]
          else if imageCache.status.reason = .imageCacheRefresh then
            if hasAnnot imageCache imageCacheRefreshAnnotationKey then
              [imageCacheRefreshAnnotationKey]
            else []
          else []
        some { updatedCache := some (updateImageCacheStatus imageCache agg.1 now),
               imageRequests := [], removedAnnots := removed, error := false }
  | .delete =>
    some { updatedCache := none, imageRequests := [],
           removedAnnots := [], error := false }

/-- Refresh-timer eligibility exactly as the spec words it: status
non-empty, not Processing, not a sticky validation failure, not purged. -/
def refreshEligible (ic : ImageCache) : Bool :=
  decide (¬ ic.status = zeroStatus) &&
  decide (¬ ic.status.status = .processing) &&
  decide (¬ (ic.status.status = .failed ∧
    ic.status.reason = .cacheSpecValidationFailed)) &&
  decide (¬ ic.status.reason = .imageCachePurge)

/-- The Refresh key the refresh worker enqueues for an ImageCache. -/
def refreshKeyOf (ic : ImageCache) : WorkQueueKey :=
  { objKey := objKeyOf ic, workType := .refresh,
    oldImageCache := none, status := none }

/-- Sample spec used by the concrete inputs below. -/
def sampleSpec : ImageCacheSpec :=
  { cacheSpec := [{ images := [{ name := "nginx", forceFullCache := false }],
                    nodeSelector := [] }],
    imagePullSecrets := [] }

/-- Concrete ImageCache in the Processing state, no annotations. -/
def c3Old : ImageCache :=
  { name := "foo", ns := "kube-fledged", annots := [],
    spec := sampleSpec,
    status := { status := .processing, reason := .imageCacheCreate,
                message := .pullingImages, failures := [],
                startTime := some 1, completionTime := none } }

/-- The same ImageCache with the purge annotation newly added and the spec
unchanged. -/
def c3New : ImageCache :=
  { c3Old with annots := [(imageCachePurgeAnnotationKey, "")] }

/-- The same ImageCache with a changed spec and no annotations. -/
def c3SpecChanged : ImageCache :=
  { c3Old with spec := { cacheSpec := [], imagePullSecrets := [] } }

/-- The same ImageCache with the refresh annotation newly added, no purge
annotation, and the spec unchanged. -/
def c3NewRefresh : ImageCache :=
  { c3Old with annots := [(imageCacheRefreshAnnotationKey, "")] }


/-- Concrete non-Processing status block with no completion time, as the
StatusUpdate path builds one. -/
def c6Status : ImageCacheStatus :=
  { status := .succeeded, reason := .imageCacheCreate,
    message := .imagesPulledSuccessfully, failures := [],
    startTime := some 1, completionTime := none }

/-- Concrete ImageCache with a terminal Succeeded status. -/
def succeededCache : ImageCache :=
  { name := "bar", ns := "kube-fledged", annots := [],
    spec := sampleSpec,
    status := { status := .succeeded, reason := .imageCacheCreate,
                message := .imagesPulledSuccessfully, failures := [],
                startTime := some 1, completionTime := some 2 } }

/-- Concrete one-node cluster state holding the Processing cache c3Old and
the terminal cache succeededCache. -/
def sampleState : ClusterState :=
  { imageCaches := [c3Old, succeededCache],
    nodes := [{ name := "n1",
                labels := [(hostnameLabel, "n1")],
                containerRuntimeVersion := "containerd://1.6" }] }

/-- The aborted status an ImageCache gets rewritten to by preflight,
completion stamped at time now. -/
def abortedWritten (startTime : Option Nat) (now : Nat) : ImageCacheStatus :=
  { status := .aborted, reason := .imagePullAborted,
    message := .imagePullAborted, failures := [],
    startTime := startTime, completionTime := some now }

/-- Concrete Update work-queue key whose oldImageCache snapshot is
missing. -/
def wq7 : WorkQueueKey :=
  { objKey := "kube-fledged/bar", workType := .update,
    oldImageCache := none, status := none }

/-- A result counts as a failure in the aggregation exactly when its
status is Failed or Unknown. -/
def resultFailed (v : ImageWorkResult) : Bool :=
  decide (v.status = .failed ∨ v.status = .unknown)

/-- Success message the aggregation writes for a result: the delete text
on a Purge verb, else the pull text. -/
def successMessageOf (v : ImageWorkResult) : ImageCacheMessage :=
  if v.imageWorkRequest.workType = .purge then .imagesDeletedSuccessfully
  else .imagesPulledSuccessfully

/-- Failure record appended for a failed result. -/
def failureRecordOf (v : ImageWorkResult) : NodeReasonMessage :=
  { node := reqNodeName v.imageWorkRequest, reason := v.reason,
    message := v.message }

/-- Append the failure records of every failed result of vs onto a
failures map. -/
def addFailuresAll (fs : List (String × List NodeReasonMessage))
    (vs : List ImageWorkResult) : List (String × List NodeReasonMessage) :=
  vs.foldl
    (fun acc v =>
      if resultFailed v then
        addFailureEntry acc v.imageWorkRequest.image (failureRecordOf v)
      else acc)
    fs

/-- Flatten a failures map into its (image, record) pairs. -/
def failurePairs (fs : List (String × List NodeReasonMessage)) :
    List (String × NodeReasonMessage) :=
  fs.flatMap fun p => p.2.map fun e => (p.1, e)

/-- Concrete node used by the sample work results. -/
def nodeA : Node :=
  { name := "n1", labels := [(hostnameLabel, "n1")],
    containerRuntimeVersion := "containerd://1.6" }

/-- Concrete non-sentinel pull request. -/
def reqA : ImageWorkRequest :=
  { image := "nginx", forceFullCache := false, node := some nodeA,
    containerRuntimeVersion := "containerd://1.6", workType := .create,
    imagecache := succeededCache }

/-- Concrete succeeded work result. -/
def resSuccess : ImageWorkResult :=
  { status := .succeeded, reason := "", message := "", imageWorkRequest := reqA }

/-- Concrete failed work result. -/
def resFail : ImageWorkResult :=
  { status := .failed, reason := "ImagePullBackOff", message := "back-off",
    imageWorkRequest := reqA }

/-- Concrete StatusUpdate work-queue key carrying one success and one
failure. -/
def wqStatusUpd : WorkQueueKey :=
  { objKey := "kube-fledged/bar", workType := .statusUpdate,
    oldImageCache := none,
    status := some [("j1", resSuccess), ("j2", resFail)] }

/-- A request is a purge request when its verb is Purge. -/
def isPurgeReq (r : ImageWorkRequest) : Bool :=
  decide (r.workType = .purge)

/-- The default CacheSpecImages entry (out-of-range getD fallback; never
reached when the index is in bounds). -/
def emptyEntry : CacheSpecImages :=
  { images := [], nodeSelector := [] }

/-- The requests the Update diff is expected to enqueue for one node at
cacheSpec index k: the pulls of the new entry followed by a purge for
every old image at index k absent from the new entry. -/
def updateNodeRequests (wq : WorkQueueKey) (ic old : ImageCache) (k : Nat)
    (entry : CacheSpecImages) (n : Node) : List ImageWorkRequest :=
  (entry.images.map fun img => pullRequest wq ic img n) ++
    (((old.spec.cacheSpec.getD k emptyEntry).images.filter
        fun oi => decide (¬ oi ∈ entry.images)).map
      fun oi => purgeRequest ic oi n)

/-- The purge requests an Update pass is expected to enqueue, as the spec
states P10: for each index k of the new cacheSpec, each resolved node,
and each old image entry at index k absent from the new images at k,
exactly one Purge request. -/
def expectedPurges (nodes : List Node) (old ic : ImageCache) :
    List ImageWorkRequest :=
  ic.spec.cacheSpec.enum.flatMap fun ke =>
    (listNodes nodes ke.2.nodeSelector).flatMap fun n =>
      ((old.spec.cacheSpec.getD ke.1 emptyEntry).images.filter
          fun oi => decide (¬ oi ∈ ke.2.images)).map
        fun oi => purgeRequest ic oi n

/-- Concrete old ImageCache for the Update diff: two images at index 0. -/
def old9 : ImageCache :=
  { name := "c9", ns := "kf", annots := [],
    spec := { cacheSpec :=
                [{ images := [{ name := "a:1", forceFullCache := false },
                              { name := "b:1", forceFullCache := false }],
                   nodeSelector := [] }],
              imagePullSecrets := [] },
    status := { status := .succeeded, reason := .imageCacheCreate,
                message := .imagesPulledSuccessfully, failures := [],
                startTime := some 1, completionTime := some 2 } }

/-- Concrete new ImageCache: image b:1 removed at index 0. -/
def ic9 : ImageCache :=
  { old9 with spec := { cacheSpec :=
                          [{ images := [{ name := "a:1", forceFullCache := false }],
                             nodeSelector := [] }],
                        imagePullSecrets := [] } }

/-- Concrete cluster state for the Update diff. -/
def st9 : ClusterState := { imageCaches := [ic9], nodes := [nodeA] }

/-- Concrete Update key carrying the old snapshot. -/
def wq9 : WorkQueueKey :=
  { objKey := "kf/c9", workType := .update,
    oldImageCache := some old9, status := none }

/-- Concrete new ImageCache whose single cacheSpec entry has a selector
matching no node. -/
def ic10 : ImageCache :=
  { name := "c10", ns := "kf", annots := [],
    spec := { cacheSpec :=
                [{ images := [{ name := "img:1", forceFullCache := false }],
                   nodeSelector := [] }],
              imagePullSecrets := [] },
    status := { status := .succeeded, reason := .imageCacheCreate,
                message := .imagesPulledSuccessfully, failures := [],
                startTime := some 1, completionTime := some 2 } }

/-- Concrete old snapshot with an empty cacheSpec (shorter than the new
one). -/
def old10 : ImageCache :=
  { ic10 with spec := { cacheSpec := [], imagePullSecrets := [] } }

/-- Concrete cluster state holding ic10 and one node. -/
def st10 : ClusterState := { imageCaches := [ic10], nodes := [nodeA] }

/-- Concrete Update key for the out-of-bounds diff. -/
def wq10 : WorkQueueKey :=
  { objKey := "kf/c10", workType := .update,
    oldImageCache := some old10, status := none }

/-- Variant of ic10 whose extra entry resolves an empty node set. -/
def ic10e : ImageCache :=
  { ic10 with spec := { cacheSpec :=
                          [{ images := [{ name := "img:1", forceFullCache := false }],
                             nodeSelector := [("zone", "nowhere")] }],
                        imagePullSecrets := [] } }

/-- Cluster state holding ic10e and one node without the selector label. -/
def st10e : ClusterState := { imageCaches := [ic10e], nodes := [nodeA] }

/-- Update key for the empty-node-set variant. -/
def wq10e : WorkQueueKey :=
  { objKey := "kf/c10", workType := .update,
    oldImageCache := some old10, status := none }

-- ===================== THEOREMS =====================

/-- Helper: a filterMap whose function is an if-then-some-else-none is a
filter followed by a map. -/
theorem filterMap_if_eq {α β : Type} (p : α → Bool) (f : α → β)
    (l : List α) :
    l.filterMap (fun a => if p a then some (f a) else none) =
      (l.filter p).map f := by
  induction l with
  | nil => rfl
  | cons a as ih =>
    by_cases h : p a <;>
      simp [List.filterMap_cons, List.filter_cons, h, ih]

/-- Helper: the refresh worker treats one ImageCache as a guarded
enqueue. -/
theorem refreshStep_eq (ic : ImageCache) :
    (if ic.status = zeroStatus then (none : Option WorkQueueKey)
     else if ic.status.status = .processing then none
     else if ic.status.status = .failed ∧
         ic.status.reason = .cacheSpecValidationFailed then none
     else if ic.status.reason = .imageCachePurge then none
     else enqueueImageCache .refresh (some ic) none) =
    if refreshEligible ic then some (refreshKeyOf ic) else none := by
  by_cases h1 : ic.status = zeroStatus <;>
    by_cases h2 : ic.status.status = .processing <;>
      by_cases h3 : ic.status.status = .failed ∧
        ic.status.reason = .cacheSpecValidationFailed <;>
        by_cases h4 : ic.status.reason = .imageCachePurge <;>
          simp [refreshEligible, refreshKeyOf, enqueueImageCache,
            h1, h2, h3, h4, Option.bind]

/-- C5: one run of the refresh worker enqueues a Refresh key for exactly
the ImageCaches in the lister whose status is non-empty, whose
status.status is not Processing, which are not a Failed /
CacheSpecValidationFailed validation casualty, and whose reason is not
ImageCachePurge - in lister order, one key each. -/
theorem runRefreshWorker_enqueues_iff_eligible (ics : List ImageCache) :
    runRefreshWorker ics = (ics.filter refreshEligible).map refreshKeyOf := by
  have hstep : (fun ic =>
      if ic.status = zeroStatus then (none : Option WorkQueueKey)
      else if ic.status.status = .processing then none
      else if ic.status.status = .failed ∧
          ic.status.reason = .cacheSpecValidationFailed then none
      else if ic.status.reason = .imageCachePurge then none
      else enqueueImageCache .refresh (some ic) none) =
      (fun ic => if refreshEligible ic then some (refreshKeyOf ic) else none) :=
    funext refreshStep_eq
  rw [runRefreshWorker, hstep, filterMap_if_eq]

/-- C4: an Add event enqueues a Create key exactly when the ImageCache
status equals the zero ImageCacheStatus; with any non-empty status the
handler returns false and enqueues nothing. -/
theorem create_enqueued_iff_status_empty (ic : ImageCache) :
    (∃ k, enqueueImageCache .create none (some ic) = some k ∧
      k.workType = .create) ↔ ic.status = zeroStatus := by
  by_cases h : ic.status = zeroStatus <;>
    simp [enqueueImageCache, h, Option.bind]

/-- C3 counterexample: with the old ImageCache in Processing and an
unchanged spec, a newly present purge-imagecache annotation IS enqueued
(as a Purge key), so annotation changes are not ignored while the cache
is Processing. -/
theorem processing_update_annotation_enqueued :
    c3Old.status.status = .processing ∧
    ¬ enqueueImageCache .update (some c3Old) (some c3New) = none := by
  decide

/-- C3 amended: while the old ImageCache is Processing, an Update event
whose spec changed enqueues nothing; but with an unchanged spec a newly
present purge-imagecache annotation is still enqueued as a Purge key, and
(when the new object carries no purge annotation, which takes precedence)
a newly present refresh-imagecache annotation is still enqueued as a
Refresh key, even while Processing. -/
theorem processing_update_admission (old new : ImageCache)
    (h1 : old.status.status = .processing) :
    (¬ new.spec = old.spec →
      enqueueImageCache .update (some old) (some new) = none) ∧
    (new.spec = old.spec →
      hasAnnot new imageCachePurgeAnnotationKey = true →
      hasAnnot old imageCachePurgeAnnotationKey = false →
      enqueueImageCache .update (some old) (some new) =
        some { objKey := objKeyOf new, workType := .purge,
               oldImageCache := none, status := none }) ∧
    (new.spec = old.spec →
      hasAnnot new imageCachePurgeAnnotationKey = false →
      hasAnnot new imageCacheRefreshAnnotationKey = true →
      hasAnnot old imageCacheRefreshAnnotationKey = false →
      enqueueImageCache .update (some old) (some new) =
        some { objKey := objKeyOf new, workType := .refresh,
               oldImageCache := none, status := none }) := by
  refine ⟨?_, ?_, ?_⟩
  · intro h2
    simp [enqueueImageCache, h1, h2, Option.bind]
  · intro h2 h3 h4
    simp [enqueueImageCache, h1, h2, h3, h4, Option.bind]
  · intro h2 h3 h4 h5
    simp [enqueueImageCache, h1, h2, h3, h4, h5, Option.bind]

/-- Witness for the C3 amended theorem at the concrete Processing cache:
all three conjuncts evaluated both at the purge-annotated new object
c3New and at the refresh-annotated new object c3NewRefresh. -/
theorem processing_update_admission_witness :
    ((¬ c3New.spec = c3Old.spec →
      enqueueImageCache .update (some c3Old) (some c3New) = none) ∧
    (c3New.spec = c3Old.spec →
      hasAnnot c3New imageCachePurgeAnnotationKey = true →
      hasAnnot c3Old imageCachePurgeAnnotationKey = false →
      enqueueImageCache .update (some c3Old) (some c3New) =
        some { objKey := objKeyOf c3New, workType := .purge,
               oldImageCache := none, status := none }) ∧
    (c3New.spec = c3Old.spec →
      hasAnnot c3New imageCachePurgeAnnotationKey = false →
      hasAnnot c3New imageCacheRefreshAnnotationKey = true →
      hasAnnot c3Old imageCacheRefreshAnnotationKey = false →
      enqueueImageCache .update (some c3Old) (some c3New) =
        some { objKey := objKeyOf c3New, workType := .refresh,
               oldImageCache := none, status := none })) ∧
    ((¬ c3NewRefresh.spec = c3Old.spec →
      enqueueImageCache .update (some c3Old) (some c3NewRefresh) = none) ∧
    (c3NewRefresh.spec = c3Old.spec →
      hasAnnot c3NewRefresh imageCachePurgeAnnotationKey = true →
      hasAnnot c3Old imageCachePurgeAnnotationKey = false →
      enqueueImageCache .update (some c3Old) (some c3NewRefresh) =
        some { objKey := objKeyOf c3NewRefresh, workType := .purge,
               oldImageCache := none, status := none }) ∧
    (c3NewRefresh.spec = c3Old.spec →
      hasAnnot c3NewRefresh imageCachePurgeAnnotationKey = false →
      hasAnnot c3NewRefresh imageCacheRefreshAnnotationKey = true →
      hasAnnot c3Old imageCacheRefreshAnnotationKey = false →
      enqueueImageCache .update (some c3Old) (some c3NewRefresh) =
        some { objKey := objKeyOf c3NewRefresh, workType := .refresh,
               oldImageCache := none, status := none })) :=
  ⟨processing_update_admission c3Old c3New (by decide),
   processing_update_admission c3Old c3NewRefresh (by decide)⟩

/-- C6: a status block persisted through updateImageCacheStatus carries a
completionTime exactly when the written status.status is neither
Processing nor empty: the update stamps the current time whenever
status.status is not Processing, and a Processing write keeps
completionTime unset. The hypotheses record what holds at every call
site: the incoming block carries no completionTime and a non-empty
status. -/
theorem updateImageCacheStatus_completionTime (ic : ImageCache)
    (status : ImageCacheStatus) (now : Nat)
    (h1 : ¬ status.status = .empty) (h2 : status.completionTime = none) :
    ((updateImageCacheStatus ic status now).status.completionTime.isSome ↔
      (¬ status.status = .processing ∧ ¬ status.status = .empty)) ∧
    (¬ status.status = .processing →
      (updateImageCacheStatus ic status now).status.completionTime = some now) ∧
    (status.status = .processing →
      (updateImageCacheStatus ic status now).status.completionTime = none) := by
  by_cases h : status.status = .processing <;>
    simp [updateImageCacheStatus, h, h1, h2]

/-- Witness for C6 at a concrete Succeeded status block. -/
theorem updateImageCacheStatus_completionTime_witness :
    ((updateImageCacheStatus succeededCache c6Status 5).status.completionTime.isSome ↔
      (¬ c6Status.status = .processing ∧ ¬ c6Status.status = .empty)) ∧
    (¬ c6Status.status = .processing →
      (updateImageCacheStatus succeededCache c6Status 5).status.completionTime = some 5) ∧
    (c6Status.status = .processing →
      (updateImageCacheStatus succeededCache c6Status 5).status.completionTime = none) :=
  updateImageCacheStatus_completionTime succeededCache c6Status 5
    (by decide) (by decide)

/-- C8: preflight (danglingImageCaches) rewrites every Processing
ImageCache to Aborted / ImagePullAborted preserving its startTime and
stamping completionTime with the current time, leaves every other field
and every non-Processing ImageCache untouched, and preserves the list
length. -/
theorem danglingImageCaches_aborts_processing (ics : List ImageCache)
    (now : Nat) (i : Nat) (h : i < ics.length) :
    (danglingImageCaches ics now).length = ics.length ∧
    ∃ ic oc, ics[i]? = some ic ∧
      (danglingImageCaches ics now)[i]? = some oc ∧
      (ic.status.status = .processing →
        oc = { ic with status := abortedWritten ic.status.startTime now }) ∧
      (¬ ic.status.status = .processing → oc = ic) := by
  refine ⟨by simp [danglingImageCaches], ?_⟩
  refine ⟨ics[i], ?_⟩
  by_cases hp : ics[i].status.status = .processing
  · refine ⟨{ ics[i] with status := abortedWritten ics[i].status.startTime now },
      by simp, ?_, fun _ => rfl, fun hc => absurd hp hc⟩
    simp [danglingImageCaches, List.getElem?_map,
      List.getElem?_eq_getElem h, hp, updateImageCacheStatus,
      abortedStatusWith, abortedWritten]
  · refine ⟨ics[i], by simp, ?_, fun hc => absurd hc hp, fun _ => rfl⟩
    simp [danglingImageCaches, List.getElem?_map,
      List.getElem?_eq_getElem h, hp]

/-- Witness for C8 on a concrete two-element cluster: index 0 holds the
Processing cache c3Old. -/
theorem danglingImageCaches_aborts_processing_witness :
    (danglingImageCaches [c3Old, succeededCache] 7).length =
      [c3Old, succeededCache].length ∧
    ∃ ic oc, [c3Old, succeededCache][0]? = some ic ∧
      (danglingImageCaches [c3Old, succeededCache] 7)[0]? = some oc ∧
      (ic.status.status = .processing →
        oc = { ic with status := abortedWritten ic.status.startTime 7 }) ∧
      (¬ ic.status.status = .processing → oc = ic) :=
  danglingImageCaches_aborts_processing [c3Old, succeededCache] 7 0
    (by decide)

/-- C7: an Update work-queue key whose oldImageCache snapshot is nil makes
syncHandler write status Failed / OldImageCacheNotFound (with
completionTime stamped) to the ImageCache and return an error, without
enqueuing any ImageWorkRequest. -/
theorem syncHandler_update_old_nil (st : ClusterState) (wq : WorkQueueKey)
    (ic : ImageCache) (now : Nat)
    (hw : wq.workType = .update) (hold : wq.oldImageCache = none)
    (hic : getImageCache st wq.objKey = some ic) :
    syncHandler st wq now =
      some { updatedCache := some
               { ic with status :=
                 { status := .failed, reason := .oldImageCacheNotFound,
                   message := .oldImageCacheNotFound, failures := [],
                   startTime := some now, completionTime := some now } },
             imageRequests := [], removedAnnots := [], error := true } := by
  simp [syncHandler, hw, hold, hic, updateImageCacheStatus]

/-- Witness for C7 on the concrete two-cache cluster state. -/
theorem syncHandler_update_old_nil_witness :
    syncHandler sampleState wq7 4 =
      some { updatedCache := some
               { succeededCache with status :=
                 { status := .failed, reason := .oldImageCacheNotFound,
                   message := .oldImageCacheNotFound, failures := [],
                   startTime := some 4, completionTime := some 4 } },
             imageRequests := [], removedAnnots := [], error := true } :=
  syncHandler_update_old_nil sampleState wq7 succeededCache 4
    (by decide) (by decide) (by decide)

/-- Helper: once the failures flag is set, the aggregation loop only
accumulates failure records; status and message are frozen. -/
theorem aggFold_true (vs : List ImageWorkResult) (s : ImageCacheStatus) :
    vs.foldl aggStep (s, true) =
      ({ s with failures := addFailuresAll s.failures vs }, true) := by
  induction vs generalizing s with
  | nil => simp [addFailuresAll]
  | cons v vs ih =>
    by_cases hf : v.status = .failed ∨ v.status = .unknown
    · have hstep : aggStep (s, true) v =
          ({ s with
              failures :=
                addFailureEntry s.failures v.imageWorkRequest.image
                  (failureRecordOf v) },
            true) := by
        simp [aggStep, hf, failureRecordOf]
      rw [List.foldl_cons, hstep, ih]
      simp [addFailuresAll, resultFailed, hf]
    · have hstep : aggStep (s, true) v = (s, true) := by
        simp [aggStep, hf]
      rw [List.foldl_cons, hstep, ih]
      simp [addFailuresAll, resultFailed, hf]

/-- Helper: full characterisation of the aggregation loop started with a
clear failures flag - the final status and message as functions of the
result list, and the accumulated failure records. -/
theorem aggFold_char (vs : List ImageWorkResult) (s : ImageCacheStatus) :
    (vs.foldl aggStep (s, false)).1.status =
      (if vs.isEmpty then s.status
       else if vs.any resultFailed then .failed else .succeeded) ∧
    (vs.any resultFailed = false →
      (vs.foldl aggStep (s, false)).1.message =
        (match vs.getLast? with
         | none => s.message
         | some v => successMessageOf v)) ∧
    (vs.foldl aggStep (s, false)).1.failures = addFailuresAll s.failures vs := by
  induction vs generalizing s with
  | nil => simp [addFailuresAll]
  | cons v vs ih =>
    by_cases hf : v.status = .failed ∨ v.status = .unknown
    · have hns : ¬ (v.status = .succeeded ∨ v.status = .alreadyPulled) := by
        rcases hf with h | h <;> simp [h]
      have hstep : aggStep (s, false) v =
          ({ s with
              status := .failed
              message :=
                if v.imageWorkRequest.workType = .purge then
                  .imageDeleteFailedForSomeImages
                else .imagePullFailedForSomeImages
              failures :=
                addFailureEntry s.failures v.imageWorkRequest.image
                  (failureRecordOf v) },
            true) := by
        simp [aggStep, hf, hns, failureRecordOf]
      rw [List.foldl_cons, hstep, aggFold_true]
      refine ⟨?_, ?_, ?_⟩
      · simp [resultFailed, hf]
      · intro hna
        exfalso
        simp [resultFailed, hf] at hna
      · simp [addFailuresAll, resultFailed, hf]
    · have hsucc : v.status = .succeeded ∨ v.status = .alreadyPulled := by
        cases h : v.status with
        | succeeded => exact Or.inl rfl
        | alreadyPulled => exact Or.inr rfl
        | failed => exact absurd (Or.inl rfl) (h ▸ hf)
        | unknown => exact absurd (Or.inr rfl) (h ▸ hf)
      have hstep : aggStep (s, false) v =
          ({ s with
              status := .succeeded
              message := successMessageOf v },
            false) := by
        simp [aggStep, hf, hsucc, successMessageOf]
      rw [List.foldl_cons, hstep]
      obtain ⟨ih1, ih2, ih3⟩ :=
        ih { s with status := .succeeded, message := successMessageOf v }
      refine ⟨?_, ?_, ?_⟩
      · rw [ih1]
        cases vs with
        | nil => simp [resultFailed, hf]
        | cons w ws => simp [resultFailed, hf]
      · intro hna
        have hna2 : vs.any resultFailed = false := by
          simp [resultFailed] at hna ⊢
          intro x hx
          exact hna.2 x hx
        rw [ih2 hna2]
        cases vs with
        | nil => simp
        | cons w ws =>
          rw [List.getLast?_cons_cons]
          cases hlast : (w :: ws).getLast? with
          | none => simp at hlast
          | some x => rfl
      · rw [ih3]
        simp [addFailuresAll, resultFailed, hf]

/-- Helper: failurePairs of a cons cell. -/
theorem failurePairs_cons (k : String) (v : List NodeReasonMessage)
    (rest : List (String × List NodeReasonMessage)) :
    failurePairs ((k, v) :: rest) =
      v.map (fun e => (k, e)) ++ failurePairs rest := by
  simp [failurePairs]

/-- Helper: membership in a constant-key map. -/
theorem mem_map_pair (k i : String) (v : List NodeReasonMessage)
    (x : NodeReasonMessage) :
    (i, x) ∈ v.map (fun e => (k, e)) ↔ i = k ∧ x ∈ v := by
  constructor
  · intro h
    obtain ⟨a, ha, hax⟩ := List.mem_map.mp h
    obtain ⟨h1, h2⟩ := Prod.mk.injEq .. ▸ hax
    exact ⟨h1.symm, h2 ▸ ha⟩
  · rintro ⟨rfl, hx⟩
    exact List.mem_map.mpr ⟨x, hx, rfl⟩

/-- Helper: membership in the flattened failures map after one append. -/
theorem mem_failurePairs_addFailureEntry
    (fs : List (String × List NodeReasonMessage)) (img : String)
    (e : NodeReasonMessage) (i : String) (x : NodeReasonMessage) :
    (i, x) ∈ failurePairs (addFailureEntry fs img e) ↔
      (i, x) ∈ failurePairs fs ∨ (i = img ∧ x = e) := by
  induction fs with
  | nil =>
    simp [addFailureEntry, failurePairs, Prod.ext_iff, eq_comm]
  | cons p rest ih =>
    obtain ⟨k, v⟩ := p
    by_cases hk : k = img
    · subst hk
      have h1 : addFailureEntry ((k, v) :: rest) k e = (k, v ++ [e]) :: rest := by
        simp [addFailureEntry]
      rw [h1, failurePairs_cons, failurePairs_cons]
      simp only [List.map_append, List.mem_append, mem_map_pair,
        List.map_cons, List.map_nil, List.mem_singleton, Prod.mk.injEq]
      tauto
    · have h1 : addFailureEntry ((k, v) :: rest) img e =
          (k, v) :: addFailureEntry rest img e := by
        simp [addFailureEntry, hk]
      rw [h1, failurePairs_cons, failurePairs_cons]
      simp only [List.mem_append, mem_map_pair]
      rw [ih]
      tauto

/-- Helper: membership in the flattened failures map accumulated over a
whole result list. -/
theorem mem_failurePairs_addFailuresAll (vs : List ImageWorkResult)
    (fs : List (String × List NodeReasonMessage)) (i : String)
    (x : NodeReasonMessage) :
    (i, x) ∈ failurePairs (addFailuresAll fs vs) ↔
      (i, x) ∈ failurePairs fs ∨
      ∃ v ∈ vs, resultFailed v ∧ i = v.imageWorkRequest.image ∧
        x = failureRecordOf v := by
  induction vs generalizing fs with
  | nil => simp [addFailuresAll]
  | cons v vs ih =>
    by_cases hv : resultFailed v
    · have h1 : addFailuresAll fs (v :: vs) =
          addFailuresAll
            (addFailureEntry fs v.imageWorkRequest.image (failureRecordOf v))
            vs := by
        simp [addFailuresAll, hv]
      rw [h1, ih, mem_failurePairs_addFailureEntry]
      simp only [List.mem_cons, hv]
      constructor
      · rintro ((h | ⟨rfl, rfl⟩) | ⟨w, hw, h2, h3, h4⟩)
        · exact Or.inl h
        · exact Or.inr ⟨v, Or.inl rfl, hv, rfl, rfl⟩
        · exact Or.inr ⟨w, Or.inr hw, h2, h3, h4⟩
      · rintro (h | ⟨w, hw | hw, h2, h3, h4⟩)
        · exact Or.inl (Or.inl h)
        · subst hw
          exact Or.inl (Or.inr ⟨h3, h4⟩)
        · exact Or.inr ⟨w, hw, h2, h3, h4⟩
    · have h1 : addFailuresAll fs (v :: vs) = addFailuresAll fs vs := by
        simp [addFailuresAll, hv]
      rw [h1, ih]
      simp only [List.mem_cons]
      constructor
      · rintro (h | ⟨w, hw, h2, h3, h4⟩)
        · exact Or.inl h
        · exact Or.inr ⟨w, Or.inr hw, h2, h3, h4⟩
      · rintro (h | ⟨w, hw | hw, h2, h3, h4⟩)
        · exact Or.inl h
        · subst hw
          exact absurd h2 (by simp [hv])
        · exact Or.inr ⟨w, hw, h2, h3, h4⟩

/-- Helper: the status.status field written by updateImageCacheStatus. -/
theorem updateICS_status (ic : ImageCache) (s : ImageCacheStatus)
    (now : Nat) :
    (updateImageCacheStatus ic s now).status.status = s.status := by
  by_cases h : s.status = .processing <;> simp [updateImageCacheStatus, h]

/-- Helper: the status.message field written by updateImageCacheStatus. -/
theorem updateICS_message (ic : ImageCache) (s : ImageCacheStatus)
    (now : Nat) :
    (updateImageCacheStatus ic s now).status.message = s.message := by
  by_cases h : s.status = .processing <;> simp [updateImageCacheStatus, h]

/-- Helper: the status.failures field written by updateImageCacheStatus. -/
theorem updateICS_failures (ic : ImageCache) (s : ImageCacheStatus)
    (now : Nat) :
    (updateImageCacheStatus ic s now).status.failures = s.failures := by
  by_cases h : s.status = .processing <;> simp [updateImageCacheStatus, h]

/-- C1: a StatusUpdate key writes the aggregate of its carried result map
onto the ImageCache: NoImagesPulledOrDeleted on an empty batch, Failed as
soon as some result is Failed or Unknown, Succeeded when the batch is
non-empty and all results are Succeeded or AlreadyPulled - and in the
success case the message is the delete-success text exactly when the verb
of the triggering (in the embedding: last processed) result is Purge,
else the pull-success text. -/
theorem syncHandler_statusUpdate_aggregate (st : ClusterState)
    (wq : WorkQueueKey) (ic : ImageCache)
    (results : List (String × ImageWorkResult)) (now : Nat)
    (hw : wq.workType = .statusUpdate)
    (hs : wq.status = some results)
    (hic : getImageCache st wq.objKey = some ic) :
    ∃ ic1, (syncHandler st wq now).bind SyncResult.updatedCache = some ic1 ∧
      ic1.status.status =
        (if (results.map Prod.snd).isEmpty then .noImagesPulledOrDeleted
         else if (results.map Prod.snd).any resultFailed then .failed
         else .succeeded) ∧
      ((results.map Prod.snd).any resultFailed = false →
        ic1.status.message =
          (match (results.map Prod.snd).getLast? with
           | none => ImageCacheMessage.noImagesPulledOrDeleted
           | some v => successMessageOf v)) := by
  have hsync : (syncHandler st wq now).bind SyncResult.updatedCache =
      some (updateImageCacheStatus ic
        ((results.map Prod.snd).foldl aggStep
          ({ status := .noImagesPulledOrDeleted, reason := ic.status.reason,
             message := .noImagesPulledOrDeleted, failures := [],
             startTime := ic.status.startTime, completionTime := none },
           false)).1 now) := by
    simp [syncHandler, hw, hs, hic]
  obtain ⟨h1, h2, h3⟩ := aggFold_char (results.map Prod.snd)
    { status := .noImagesPulledOrDeleted, reason := ic.status.reason,
      message := .noImagesPulledOrDeleted, failures := [],
      startTime := ic.status.startTime, completionTime := none }
  refine ⟨_, hsync, ?_, ?_⟩
  · rw [updateICS_status, h1]
  · intro hna
    rw [updateICS_message, h2 hna]

/-- Witness for C1 on a concrete batch of one success and one failure. -/
theorem syncHandler_statusUpdate_aggregate_witness :
    ∃ ic1, (syncHandler sampleState wqStatusUpd 9).bind
        SyncResult.updatedCache = some ic1 ∧
      ic1.status.status =
        (if ([("j1", resSuccess), ("j2", resFail)].map Prod.snd).isEmpty then
          .noImagesPulledOrDeleted
         else if ([("j1", resSuccess), ("j2", resFail)].map Prod.snd).any
             resultFailed then .failed
         else .succeeded) ∧
      (([("j1", resSuccess), ("j2", resFail)].map Prod.snd).any
          resultFailed = false →
        ic1.status.message =
          (match ([("j1", resSuccess), ("j2", resFail)].map Prod.snd).getLast? with
           | none => ImageCacheMessage.noImagesPulledOrDeleted
           | some v => successMessageOf v)) :=
  syncHandler_statusUpdate_aggregate sampleState wqStatusUpd succeededCache
    [("j1", resSuccess), ("j2", resFail)] 9 (by decide) (by decide) (by decide)

/-- C2: the failures mapping written by a StatusUpdate key contains an
entry (image, {node, reason, message}) exactly for the results of the
batch whose status is Failed or Unknown; no entry originates from a
Succeeded or AlreadyPulled result. -/
theorem syncHandler_statusUpdate_failures (st : ClusterState)
    (wq : WorkQueueKey) (ic : ImageCache)
    (results : List (String × ImageWorkResult)) (now : Nat)
    (hw : wq.workType = .statusUpdate)
    (hs : wq.status = some results)
    (hic : getImageCache st wq.objKey = some ic) :
    ∃ ic1, (syncHandler st wq now).bind SyncResult.updatedCache = some ic1 ∧
      ∀ i x, (i, x) ∈ failurePairs ic1.status.failures ↔
        ∃ p ∈ results, resultFailed p.2 ∧ i = p.2.imageWorkRequest.image ∧
          x = failureRecordOf p.2 := by
  have hsync : (syncHandler st wq now).bind SyncResult.updatedCache =
      some (updateImageCacheStatus ic
        ((results.map Prod.snd).foldl aggStep
          ({ status := .noImagesPulledOrDeleted, reason := ic.status.reason,
             message := .noImagesPulledOrDeleted, failures := [],
             startTime := ic.status.startTime, completionTime := none },
           false)).1 now) := by
    simp [syncHandler, hw, hs, hic]
  obtain ⟨h1, h2, h3⟩ := aggFold_char (results.map Prod.snd)
    { status := .noImagesPulledOrDeleted, reason := ic.status.reason,
      message := .noImagesPulledOrDeleted, failures := [],
      startTime := ic.status.startTime, completionTime := none }
  refine ⟨_, hsync, ?_⟩
  intro i x
  rw [updateICS_failures, h3, mem_failurePairs_addFailuresAll]
  constructor
  · rintro (h | ⟨v, hv, hvf, rfl, rfl⟩)
    · simp [failurePairs] at h
    · obtain ⟨p, hp, rfl⟩ := List.mem_map.mp hv
      exact ⟨p, hp, hvf, rfl, rfl⟩
  · rintro ⟨p, hp, hpf, rfl, rfl⟩
    exact Or.inr ⟨p.2, List.mem_map.mpr ⟨p, hp, rfl⟩, hpf, rfl, rfl⟩

/-- Witness for C2 on the same concrete batch. -/
theorem syncHandler_statusUpdate_failures_witness :
    ∃ ic1, (syncHandler sampleState wqStatusUpd 9).bind
        SyncResult.updatedCache = some ic1 ∧
      ∀ i x, (i, x) ∈ failurePairs ic1.status.failures ↔
        ∃ p ∈ [("j1", resSuccess), ("j2", resFail)],
          resultFailed p.2 ∧ i = p.2.imageWorkRequest.image ∧
            x = failureRecordOf p.2 :=
  syncHandler_statusUpdate_failures sampleState wqStatusUpd succeededCache
    [("j1", resSuccess), ("j2", resFail)] 9 (by decide) (by decide) (by decide)

/-- Helper: collectSome is a flatMap when every element produces a list. -/
theorem collectSome_eq_flatMap {α β : Type} (f : α → Option (List β))
    (g : α → List β) (l : List α) (h : ∀ a ∈ l, f a = some (g a)) :
    collectSome f l = some (l.flatMap g) := by
  induction l with
  | nil => simp [collectSome]
  | cons a as ih =>
    have ha := h a (List.mem_cons_self a as)
    have has := ih fun b hb => h b (List.mem_cons_of_mem a hb)
    simp [collectSome, ha, has]

/-- Helper: collectSome produces a value exactly when every element
does. -/
theorem collectSome_isSome {α β : Type} (f : α → Option (List β))
    (l : List α) :
    (collectSome f l).isSome ↔ ∀ a ∈ l, (f a).isSome := by
  induction l with
  | nil => simp [collectSome]
  | cons a as ih =>
    cases hfa : f a with
    | none => simp [collectSome, hfa]
    | some bs =>
      cases has : collectSome f as with
      | none =>
        rw [has] at ih
        simp only [collectSome, hfa, has]
        simp only [Option.isSome_none, Bool.false_eq_true, false_iff] at ih ⊢
        intro hall
        exact ih fun b hb => hall b (List.mem_cons_of_mem a hb)
      | some rest =>
        rw [has] at ih
        simp only [collectSome, hfa, has]
        simp only [Option.isSome_some, true_iff] at ih
        simp only [Option.isSome_some, true_iff, List.mem_cons]
        rintro b (rfl | hb)
        · simp [hfa]
        · exact ih b hb

/-- Helper: filter distributes over flatMap. -/
theorem filter_flatMap_eq {α β : Type} (l : List α) (f : α → List β)
    (p : β → Bool) :
    ((l.flatMap f).filter p) = l.flatMap fun a => (f a).filter p := by
  induction l with
  | nil => rfl
  | cons a as ih => simp [List.flatMap_cons, List.filter_append, ih]

/-- Helper: requestsForNode on an Update key with an in-bounds index. -/
theorem requestsForNode_update_eq (wq : WorkQueueKey) (ic old : ImageCache)
    (k : Nat) (entry : CacheSpecImages) (n : Node)
    (hw : wq.workType = .update) (hold : wq.oldImageCache = some old)
    (hk : k < old.spec.cacheSpec.length) :
    requestsForNode wq ic k entry n =
      some (updateNodeRequests wq ic old k entry n) := by
  have hsome : old.spec.cacheSpec[k]? =
      some (old.spec.cacheSpec.getD k emptyEntry) := by
    rw [List.getD_eq_getElem?_getD, List.getElem?_eq_getElem hk]
    rfl
  simp only [requestsForNode, hw, hold, hsome, updateNodeRequests,
    if_true, eq_self_iff_true]

/-- Helper: the purge part of updateNodeRequests under the filter. -/
theorem filter_updateNodeRequests (wq : WorkQueueKey) (ic old : ImageCache)
    (k : Nat) (entry : CacheSpecImages) (n : Node)
    (hw : wq.workType = .update) :
    (updateNodeRequests wq ic old k entry n).filter isPurgeReq =
      ((old.spec.cacheSpec.getD k emptyEntry).images.filter
          fun oi => decide (¬ oi ∈ entry.images)).map
        fun oi => purgeRequest ic oi n := by
  rw [updateNodeRequests, List.filter_append]
  have h1 : (entry.images.map fun img => pullRequest wq ic img n).filter
      isPurgeReq = [] := by
    rw [List.filter_eq_nil_iff]
    intro r hr
    obtain ⟨img, _, rfl⟩ := List.mem_map.mp hr
    simp [isPurgeReq, pullRequest, hw]
  have h2 : (((old.spec.cacheSpec.getD k emptyEntry).images.filter
      fun oi => decide (¬ oi ∈ entry.images)).map
        fun oi => purgeRequest ic oi n).filter isPurgeReq =
      ((old.spec.cacheSpec.getD k emptyEntry).images.filter
          fun oi => decide (¬ oi ∈ entry.images)).map
        fun oi => purgeRequest ic oi n := by
    rw [List.filter_eq_self]
    intro r hr
    obtain ⟨img, _, rfl⟩ := List.mem_map.mp hr
    simp [isPurgeReq, purgeRequest]
  rw [h1, h2, List.nil_append]

/-- C9: in an Update pass whose old cacheSpec is long enough, the Purge
requests enqueued on the image work queue are exactly one request per
(index k of the new cacheSpec, resolved node, old image entry at index k
absent as a {name, forceFullCache} pair from the new images at index k) -
no more, no fewer, none for matched entries. -/
theorem syncHandler_update_purge_diff (st : ClusterState)
    (wq : WorkQueueKey) (ic old : ImageCache) (now : Nat)
    (hw : wq.workType = .update) (hold : wq.oldImageCache = some old)
    (hic : getImageCache st wq.objKey = some ic)
    (hlen : ic.spec.cacheSpec.length ≤ old.spec.cacheSpec.length) :
    ∃ out, syncHandler st wq now = some out ∧
      out.imageRequests.filter isPurgeReq = expectedPurges st.nodes old ic := by
  have hgen : genRequests st.nodes wq ic =
      some (ic.spec.cacheSpec.enum.flatMap fun ke =>
        (listNodes st.nodes ke.2.nodeSelector).flatMap
          (updateNodeRequests wq ic old ke.1 ke.2)) := by
    apply collectSome_eq_flatMap
    intro ke hke
    apply collectSome_eq_flatMap
    intro n _
    have hk0 : ic.spec.cacheSpec[ke.1]? = some ke.2 :=
      List.mem_enum_iff_getElem?.mp hke
    have hk1 : ke.1 < ic.spec.cacheSpec.length :=
      (List.getElem?_eq_some.mp hk0).1
    exact requestsForNode_update_eq wq ic old ke.1 ke.2 n hw hold
      (lt_of_lt_of_le hk1 hlen)
  have hsync : syncHandler st wq now = some
      { updatedCache := some (updateImageCacheStatus ic
          { status := .processing, reason := processingReason wq.workType,
            message := processingMessage wq.workType, failures := [],
            startTime := some now, completionTime := none } now),
        imageRequests := (ic.spec.cacheSpec.enum.flatMap fun ke =>
          (listNodes st.nodes ke.2.nodeSelector).flatMap
            (updateNodeRequests wq ic old ke.1 ke.2)) ++
          [sentinelRequest wq.workType ic],
        removedAnnots := [], error := false } := by
    simp [syncHandler, hw, hold, hic, hgen]
  refine ⟨_, hsync, ?_⟩
  have hfu := fun k entry n =>
    filter_updateNodeRequests wq ic old k entry n hw
  have hsent : [sentinelRequest wq.workType ic].filter isPurgeReq = [] := by
    simp [sentinelRequest, isPurgeReq, hw]
  simp only [List.filter_append, hsent, List.append_nil,
    filter_flatMap_eq, hfu, expectedPurges]

/-- Witness for C9: old spec [a, b], new spec [a], one node - the filter
of the enqueued requests is exactly the expected single purge. -/
theorem syncHandler_update_purge_diff_witness :
    ∃ out, syncHandler st9 wq9 3 = some out ∧
      out.imageRequests.filter isPurgeReq = expectedPurges st9.nodes old9 ic9 :=
  syncHandler_update_purge_diff st9 wq9 ic9 old9 3
    (by decide) (by decide) (by decide) (by decide)

/-- C10 counterexample: an Update key whose old cacheSpec (length 0) is
shorter than the new one (length 1), with one resolved node, reaches the
purge-diff step and the positional access goes out of bounds - the
embedding yields none (a Go index-out-of-range panic), so the access is
not within bounds for every Update key reaching the diff. -/
theorem update_diff_index_out_of_bounds :
    old10.spec.cacheSpec.length < ic10.spec.cacheSpec.length ∧
    syncHandler st10 wq10 0 = none := by
  decide

/-- Helper: whether requestsForNode produces a value on an Update key
depends only on the index being within the old cacheSpec. -/
theorem requestsForNode_isSome (wq : WorkQueueKey) (ic old : ImageCache)
    (k : Nat) (entry : CacheSpecImages) (n : Node)
    (hw : wq.workType = .update) (hold : wq.oldImageCache = some old) :
    (requestsForNode wq ic k entry n).isSome ↔
      k < old.spec.cacheSpec.length := by
  simp only [requestsForNode, hw, hold, if_true, eq_self_iff_true]
  cases hk : old.spec.cacheSpec[k]? with
  | none =>
    have hlen := List.getElem?_eq_none_iff.mp hk
    simp [hk]
    omega
  | some v =>
    have hlen := (List.getElem?_eq_some.mp hk).1
    simp [hk, hlen]

/-- C10 amended: syncHandler on an Update key (with the old snapshot
present and the cache found) is total exactly when every index k of the
new cacheSpec whose resolved node set is non-empty lies within the old
cacheSpec; in particular it is total whenever the old cacheSpec is at
least as long as the new one. With a shorter old cacheSpec and a
non-empty node set at an overhanging index the positional access goes out
of bounds. -/
theorem syncHandler_update_totality (st : ClusterState) (wq : WorkQueueKey)
    (ic old : ImageCache) (now : Nat)
    (hw : wq.workType = .update) (hold : wq.oldImageCache = some old)
    (hic : getImageCache st wq.objKey = some ic) :
    ((syncHandler st wq now).isSome ↔
      ∀ k, k < ic.spec.cacheSpec.length →
        listNodes st.nodes
          (ic.spec.cacheSpec.getD k emptyEntry).nodeSelector ≠ [] →
        k < old.spec.cacheSpec.length) ∧
    (ic.spec.cacheSpec.length ≤ old.spec.cacheSpec.length →
      (syncHandler st wq now).isSome) := by
  have hA : (syncHandler st wq now).isSome =
      (genRequests st.nodes wq ic).isSome := by
    simp only [syncHandler, hw, hic, hold]
    cases hg : genRequests st.nodes wq ic <;> simp [hg]
  have hiff : (syncHandler st wq now).isSome ↔
      ∀ k, k < ic.spec.cacheSpec.length →
        listNodes st.nodes
          (ic.spec.cacheSpec.getD k emptyEntry).nodeSelector ≠ [] →
        k < old.spec.cacheSpec.length := by
    rw [hA, genRequests, collectSome_isSome]
    constructor
    · intro h k hk hne
      obtain ⟨n, hn⟩ := List.exists_mem_of_ne_nil _ hne
      have hmem : (k, ic.spec.cacheSpec.getD k emptyEntry) ∈
          ic.spec.cacheSpec.enum := by
        rw [List.mem_enum_iff_getElem?]
        rw [List.getD_eq_getElem?_getD, List.getElem?_eq_getElem hk]
        rfl
      have h2 := h _ hmem
      rw [collectSome_isSome] at h2
      exact (requestsForNode_isSome wq ic old k _ n hw hold).mp (h2 n hn)
    · intro h ke hke
      rw [collectSome_isSome]
      intro n hn
      apply (requestsForNode_isSome wq ic old ke.1 ke.2 n hw hold).mpr
      have hk0 : ic.spec.cacheSpec[ke.1]? = some ke.2 :=
        List.mem_enum_iff_getElem?.mp hke
      have hk1 : ke.1 < ic.spec.cacheSpec.length :=
        (List.getElem?_eq_some.mp hk0).1
      apply h ke.1 hk1
      have hgd : ic.spec.cacheSpec.getD ke.1 emptyEntry = ke.2 := by
        rw [List.getD_eq_getElem?_getD, hk0]
        rfl
      rw [hgd]
      exact List.ne_nil_of_mem hn
  exact ⟨hiff, fun hlen => hiff.mpr fun k hk _ => lt_of_lt_of_le hk hlen⟩

/-- Witness for the C10 amended theorem at the empty-node-set variant:
the selector of the single new entry matches no node, so the sync is
total even though the old cacheSpec is shorter. -/
theorem syncHandler_update_totality_witness :
    ((syncHandler st10e wq10e 0).isSome ↔
      ∀ k, k < ic10e.spec.cacheSpec.length →
        listNodes st10e.nodes
          (ic10e.spec.cacheSpec.getD k emptyEntry).nodeSelector ≠ [] →
        k < old10.spec.cacheSpec.length) ∧
    (ic10e.spec.cacheSpec.length ≤ old10.spec.cacheSpec.length →
      (syncHandler st10e wq10e 0).isSome) :=
  syncHandler_update_totality st10e wq10e ic10e old10 0
    (by decide) (by decide) (by decide)
